import Mathlib

/-!
Verification of the mpv video-output presentation pipeline interface layer
(src/video/out/vo.h and src/libmpv/render.h) against its specification.

The repository ships only the interface headers; the engine implementation
(vo.c / render backends) is not part of the sources. Structures, constants
and flag bits below are embedded from the headers; the dynamic behaviour of
the frame queue, timing engine, dispatcher and render-context handshake is
modelled from the specification, as marked on each definition.
-/

set_option maxHeartbeats 1000000

namespace Movi

/-- From the source (vo.h line 212): bounded lookahead capacity. -/
def VO_MAX_REQ_FRAMES : Nat := 10

/-- From the source (vo.h lines 203-210): driver capability bits. -/
def VO_CAP_ROTATE90 : Nat := 1

/-- From the source (vo.h line 207): VO does framedrop itself. -/
def VO_CAP_FRAMEDROP : Nat := 2

/-- From the source (vo.h line 209): VO does not allow frames to be retained. -/
def VO_CAP_NORETAIN : Nat := 4

/-- Images are modelled as opaque tags (an `mp_image *` identity). -/
abbrev MPImage := Nat

/-- From the source (vo.h lines 227-295): `struct vo_frame`. Timing fields
use integer microseconds of the monotonic clock; `current` is an optional
image because the header warns it can be NULL for OSD redraws in
`--force-window --idle` mode. -/
structure vo_frame where
  pts : Int
  duration : Int
  vsync_interval : Int
  vsync_offset : Int
  ideal_frame_duration : Int
  num_vsyncs : Int
  redraw : Bool
  repeat_ : Bool
  still : Bool
  display_synced : Bool
  can_drop : Bool
  current : Option MPImage
  num_frames : Nat
  frames : List MPImage
  frame_id : Nat
  deriving Repr, DecidableEq

/-- From the source (vo.h lines 297-315): the static part of `struct
vo_driver` that the engine's decisions read (capability bits and flags). -/
structure vo_driver where
  encode : Bool
  initially_blocked : Bool
  caps : Nat
  untimed : Bool
  deriving Repr, DecidableEq

/-- Modelled from the spec: the vsync-interval estimator's moving statistics
(last, running average, peak, bounded sample ring); vo.c is not in the
sources. All values are integer microseconds. -/
structure VsyncEstimator where
  last : Int
  avg : Int
  peak : Int
  samples : List Int
  deriving Repr, DecidableEq

/-- Modelled from the spec: the estimator's seed state (cleared statistics). -/
def seedEstimator : VsyncEstimator :=
  { last := 0, avg := 0, peak := 0, samples := [] }

/-- Modelled from the spec: `report_swap(time)` feeds the observed interval
into the moving statistics, keeping a bounded sample ring. -/
def est_report (e : VsyncEstimator) (interval : Int) : VsyncEstimator :=
  { last := interval
    avg := (e.avg + interval) / 2
    peak := max e.peak interval
    samples := (interval :: e.samples).take 256 }

/-- An image as enqueued by the playback core, with the id the engine
assigned at enqueue time and the per-frame flags relevant to timing. -/
structure QImg where
  img : MPImage
  id : Nat
  pts : Int
  can_drop : Bool
  display_synced : Bool
  deriving Repr, DecidableEq

/-- Modelled from the spec: the VO state tree owned by the dispatcher —
bounded frame queue, monotone frame-id source, previous presented frame,
drop/delayed counters, vsync estimator, pending redraw and wakeup flags
(vo.c is not in the sources). -/
structure VOState where
  driver : vo_driver
  queue : List QImg
  next_frame_id : Nat
  prev_frame : Option vo_frame
  drop_count : Nat
  delayed_count : Nat
  estimator : VsyncEstimator
  last_swap : Int
  want_redraw : Bool
  wakeup_pending : Bool
  deriving Repr, DecidableEq

/-- Modelled from the spec: the fresh VO state; frame ids start at 1 so that
the id 0 is never used. -/
def initState (d : vo_driver) : VOState :=
  { driver := d, queue := [], next_frame_id := 1, prev_frame := none,
    drop_count := 0, delayed_count := 0, estimator := seedEstimator,
    last_swap := 0, want_redraw := false, wakeup_pending := false }

/-- Modelled from the spec: `queue_frame` accepts a frame when the queue is
not over capacity (rejection is a local fault, the caller retries); the
engine assigns the next monotone id. Returns the new state and the assigned
id on success. -/
def vo_queue_frame (s : VOState) (img : MPImage) (pts : Int)
    (cd sync : Bool) : VOState × Option Nat :=
  if VO_MAX_REQ_FRAMES ≤ s.queue.length then (s, none)
  else ({ s with
            queue := s.queue ++ [⟨img, s.next_frame_id, pts, cd, sync⟩],
            next_frame_id := s.next_frame_id + 1 },
        some s.next_frame_id)

/-- Build the `vo_frame` handed to the driver when presenting the queue head
`q` with remaining queue `rest`: `frames[0]` is current and the lookahead
window is capped at `VO_MAX_REQ_FRAMES` (vo.h lines 275-294). -/
def mk_frame (s : VOState) (q : QImg) (rest : List QImg) : vo_frame :=
  { pts := q.pts, duration := 0, vsync_interval := s.estimator.avg,
    vsync_offset := 0, ideal_frame_duration := 0, num_vsyncs := 1,
    redraw := false, repeat_ := false, still := false,
    display_synced := q.display_synced, can_drop := q.can_drop,
    current := some q.img,
    num_frames := 1 + min rest.length (VO_MAX_REQ_FRAMES - 1),
    frames := q.img :: (rest.take (VO_MAX_REQ_FRAMES - 1)).map QImg.img,
    frame_id := q.id }

/-- Modelled from the spec: `next_to_present()` selects the frame whose
target time has arrived or passed; if the queue is empty, the previous frame
is marked `redraw=true, repeat=true` and re-offered (instant redraws keep
the same frame id). Returns the new state and the offered frame. -/
def next_to_present (s : VOState) (now : Int) : VOState × Option vo_frame :=
  match s.queue with
  | [] =>
    match s.prev_frame with
    | none => (s, none)
    | some f =>
      let f' := { f with redraw := true, repeat_ := true }
      ({ s with prev_frame := some f' }, some f')
  | q :: rest =>
    if q.pts ≤ now then
      let f := mk_frame s q rest
      ({ s with queue := rest, prev_frame := some f }, some f)
    else (s, none)

/-- Modelled from the spec: the predicted display slot of `q` has already
elapsed relative to the next estimated vsync. -/
def slot_elapsed (s : VOState) (q : QImg) (now : Int) : Bool :=
  q.pts + s.estimator.avg < now

/-- Modelled from the spec: a frame is droppable only if `can_drop` is set,
its predicted display slot has elapsed, the driver does not claim
self-managed framedrop (`VO_CAP_FRAMEDROP`, vo.h line 207: untimed VOs
never drop either). -/
def frame_droppable (s : VOState) (q : QImg) (now : Int) : Bool :=
  q.can_drop && slot_elapsed s q now
    && decide (s.driver.caps &&& VO_CAP_FRAMEDROP = 0)
    && !s.driver.untimed

/-- Modelled from the spec: one drop decision of the timing engine on the
queue head; dropping increments the drop counter. -/
def drop_tick (s : VOState) (now : Int) : VOState :=
  match s.queue with
  | [] => s
  | q :: rest =>
    if frame_droppable s q now then
      { s with queue := rest, drop_count := s.drop_count + 1 }
    else s

/-- Modelled from the spec: `report_swap(time)` feeds the true presentation
time back into the vsync-interval estimator. -/
def report_swap (s : VOState) (t : Int) : VOState :=
  { s with estimator := est_report s.estimator (t - s.last_swap),
           last_swap := t }

/-- Modelled from the spec: on seek the queue is flushed and the vsync
estimator's history is discarded (reset to the seed state); frame ids
continue monotonically and the counters are not touched by the seek
itself. -/
def vo_seek_reset (s : VOState) : VOState :=
  { s with queue := [], estimator := seedEstimator }

/-- From the source (vo.h line 545): read the drop counter. -/
def vo_get_drop_count (s : VOState) : Nat := s.drop_count

/-- Modelled from the spec (vo.h lines 437-453): `wakeup()` acts as a binary
semaphore; it only sets the pending bit and calls no other VO operation. -/
def vo_wakeup (s : VOState) : VOState := { s with wakeup_pending := true }

/-- Modelled from the spec: `wait_events()` returns immediately (second
component `true`) when a wakeup is pending, consuming it; otherwise it
blocks until timeout (second component `false`). -/
def wait_events (s : VOState) : VOState × Bool :=
  if s.wakeup_pending then ({ s with wakeup_pending := false }, true)
  else (s, false)

/-- Modelled from the spec: request a redraw of the current frame; untimed
drivers never redraw (vo.h line 313), so the request is dropped there. -/
def vo_redraw (s : VOState) : VOState :=
  if s.driver.untimed then s else { s with want_redraw := true }

/-- Modelled from the spec: one iteration of the engine's render loop.
Untimed drivers push frames as fast as the driver accepts them: no drop
decision, no redraw re-offer, no pacing delay. Timed drivers run the drop
decision, then `next_to_present`, and pace until the frame's target time.
Returns the new state, the frame handed to the driver, and the pacing
delay. -/
def render_step (s : VOState) (now : Int) : VOState × Option vo_frame × Int :=
  if s.driver.untimed then
    match s.queue with
    | [] => (s, none, 0)
    | q :: rest =>
      let f := mk_frame s q rest
      ({ s with queue := rest, prev_frame := some f }, some f, 0)
  else
    let s1 := drop_tick s now
    let p := next_to_present s1 now
    (p.1, p.2, match p.2 with
               | none => 0
               | some f => max 0 (f.pts - now))

/-- The public operations other threads marshal onto the dispatcher. -/
inductive VOOp where
  | queue (img : MPImage) (pts : Int) (cd sync : Bool)
  | render (now : Int)
  | drop (now : Int)
  | swap (t : Int)
  | seek
  | redraw
  | wakeup
  | wait
  deriving Repr, DecidableEq

/-- One dispatcher step: the worker serializes the public operations. -/
def step (s : VOState) : VOOp → VOState
  | .queue img pts cd sync => (vo_queue_frame s img pts cd sync).1
  | .render now => (render_step s now).1
  | .drop now => drop_tick s now
  | .swap t => report_swap s t
  | .seek => vo_seek_reset s
  | .redraw => vo_redraw s
  | .wakeup => vo_wakeup s
  | .wait => (wait_events s).1

/-- Run a sequence of dispatcher operations. -/
def run (s : VOState) (ops : List VOOp) : VOState := ops.foldl step s

/-- The ids assigned by the successful `queue_frame` calls of a run, in
order. -/
def run_ids : VOState → List VOOp → List Nat
  | _, [] => []
  | s, op :: rest =>
    match op with
    | .queue img pts cd sync =>
      match vo_queue_frame s img pts cd sync with
      | (s', some n) => n :: run_ids s' rest
      | (s', none) => run_ids s' rest
    | _ => run_ids (step s op) rest

/-- The queue holds consecutively numbered images: element `n` carries id
`base + n`. This is the invariant behind vo.h lines 288-294 (`frames[n]`
has the ID `frame_id+n`, kept across drops and reconfigs). -/
def ids_consecutive : List QImg → Nat → Prop
  | [], _ => True
  | q :: rest, base => q.id = base ∧ ids_consecutive rest (base + 1)

/-- The reachable-state invariant of the frame queue: ids are consecutive
from some base ≥ 1, the id source sits right past the queue, and any
previously presented frame has a nonzero id and a nonempty frame list. -/
def Inv (s : VOState) : Prop :=
  (∃ base, 1 ≤ base ∧ ids_consecutive s.queue base ∧
      s.next_frame_id = base + s.queue.length) ∧
  (∀ f, s.prev_frame = some f → 1 ≤ f.frame_id ∧ 0 < f.num_frames)

/-- From the source (vo.h lines 288-294): the id contract of a `vo_frame` —
the ID is never 0 while real frames exist, but when `current == NULL` the
number is meaningless and unconstrained. -/
def vo_frame_id_ok (f : vo_frame) : Prop :=
  f.current ≠ none → 0 < f.num_frames → f.frame_id ≠ 0

/-- Modelled from the spec (vo.h lines 268-274): the frame handed to
`draw_frame` for an OSD redraw in `--force-window --idle` mode: `current`
is NULL, the VO draws a black background with OSD on top, and `frame_id`
carries no meaning. -/
def osd_idle_redraw_frame : vo_frame :=
  { pts := 0, duration := 0, vsync_interval := 0, vsync_offset := 0,
    ideal_frame_duration := 0, num_vsyncs := 1, redraw := true,
    repeat_ := false, still := true, display_synced := false,
    can_drop := false, current := none, num_frames := 0, frames := [],
    frame_id := 0 }

/-! Render-context handshake (src/libmpv/render.h). -/

/-- From the source (render.h): error codes named by the
`mpv_render_context_create` documentation (the numeric values live in
client.h, which is not in the sources; the codes are modelled as a
distinguishable inductive). -/
inductive mpv_error where
  | success
  | unsupported
  | not_implemented
  | invalid_parameter
  | generic
  deriving Repr, DecidableEq

/-- The payload of a render parameter (`void *data` in the source, whose
expected shape depends on the parameter type). -/
inductive ParamData where
  | str (s : String)
  | int (n : Int)
  | ptr (tag : Nat)
  | null
  deriving Repr, DecidableEq

/-- From the source (render.h lines 152-345): `struct mpv_render_param`. -/
structure mpv_render_param where
  type : Nat
  data : ParamData
  deriving Repr, DecidableEq

/-- From the source (render.h lines 158-344): parameter type values. -/
def MPV_RENDER_PARAM_INVALID : Nat := 0

/-- From the source (render.h line 178). -/
def MPV_RENDER_PARAM_API_TYPE : Nat := 1

/-- From the source (render.h line 185). -/
def MPV_RENDER_PARAM_OPENGL_INIT_PARAMS : Nat := 2

/-- From the source (render.h line 190). -/
def MPV_RENDER_PARAM_OPENGL_FBO : Nat := 3

/-- From the source (render.h line 198). -/
def MPV_RENDER_PARAM_FLIP_Y : Nat := 4

/-- From the source (render.h line 206). -/
def MPV_RENDER_PARAM_DEPTH : Nat := 5

/-- From the source (render.h line 213). -/
def MPV_RENDER_PARAM_ICC_PROFILE : Nat := 6

/-- From the source (render.h line 219). -/
def MPV_RENDER_PARAM_AMBIENT_LIGHT : Nat := 7

/-- From the source (render.h line 276). -/
def MPV_RENDER_PARAM_ADVANCED_CONTROL : Nat := 10

/-- From the source (render.h line 291). -/
def MPV_RENDER_PARAM_NEXT_FRAME_INFO : Nat := 11

/-- From the source (render.h line 312). -/
def MPV_RENDER_PARAM_BLOCK_FOR_TARGET_TIME : Nat := 12

/-- From the source (render.h line 332). -/
def MPV_RENDER_PARAM_SKIP_RENDERING : Nat := 13

/-- From the source (render.h line 387). -/
def MPV_RENDER_API_TYPE_OPENGL : String := "opengl"

/-- From the source (render.h lines 393-449): `mpv_render_frame_info_flag`
bits. -/
def MPV_RENDER_FRAME_INFO_PRESENT : Nat := 1

/-- From the source (render.h line 428). -/
def MPV_RENDER_FRAME_INFO_REDRAW : Nat := 2

/-- From the source (render.h line 438). -/
def MPV_RENDER_FRAME_INFO_REPEAT : Nat := 4

/-- From the source (render.h line 448). -/
def MPV_RENDER_FRAME_INFO_BLOCK_VSYNC : Nat := 8

/-- From the source (render.h line 632): `MPV_RENDER_UPDATE_FRAME`. -/
def MPV_RENDER_UPDATE_FRAME : Nat := 1

/-- From the source (render.h lines 456-479): `struct mpv_render_frame_info`. -/
structure mpv_render_frame_info where
  flags : Nat
  target_time : Int
  deriving Repr, DecidableEq

/-- Look up the first parameter of the given type in a parameter list
(parameter order is irrelevant per render.h lines 373-376). -/
def find_param (params : List mpv_render_param) (t : Nat) : Option ParamData :=
  (params.find? (fun p => p.type == t)).map mpv_render_param.data

/-- Modelled from the spec: the libmpv binary the context is created
against — which API types are built in, whether the backend's
version/extensions suffice, and the driver the VO will bind. -/
structure Backend where
  builtin : List String
  version_ok : Bool
  driver : vo_driver
  deriving Repr, DecidableEq

/-- Modelled from the spec: the render context state — the queue/timing
engine exposed to the external render thread, the advanced-control flag,
the frame-ready bit set for update(), and how many frames were considered
rendered. -/
structure RenderCtx where
  api : String
  advanced_control : Bool
  vo : VOState
  update_pending : Bool
  rendered_count : Nat
  deriving Repr, DecidableEq

/-- Modelled from the spec (render.h lines 505-523): context construction.
A missing or ill-typed `MPV_RENDER_PARAM_API_TYPE` is a malformed parameter
list (`MPV_ERROR_INVALID_PARAMETER`); an API type not built into the binary
yields `MPV_ERROR_NOT_IMPLEMENTED`; a known API whose backend
version/extensions are insufficient yields `MPV_ERROR_UNSUPPORTED`.
Construction never aborts: every input maps to a typed result. -/
def mpv_render_context_create (b : Backend) (params : List mpv_render_param) :
    Except mpv_error RenderCtx :=
  match find_param params MPV_RENDER_PARAM_API_TYPE with
  | some (ParamData.str api) =>
    if api ∈ b.builtin then
      if b.version_ok then
        Except.ok
          { api := api
            advanced_control :=
              match find_param params MPV_RENDER_PARAM_ADVANCED_CONTROL with
              | some (ParamData.int n) => n ≠ 0
              | _ => false
            vo := initState b.driver
            update_pending := false
            rendered_count := 0 }
      else Except.error mpv_error.unsupported
    else Except.error mpv_error.not_implemented
  | _ => Except.error mpv_error.invalid_parameter

/-- Modelled from the spec (render.h lines 393-449): information about the
next frame only. A redraw request counts as a frame (PRESENT is set for any
kind of frame); if there is no next frame, PRESENT is unset and the other
fields carry no information. -/
def next_frame_info (s : VOState) (now : Int) : mpv_render_frame_info :=
  match (next_to_present s now).2 with
  | none => { flags := 0, target_time := 0 }
  | some f =>
    { flags := MPV_RENDER_FRAME_INFO_PRESENT
        ||| (if f.redraw then MPV_RENDER_FRAME_INFO_REDRAW else 0)
        ||| (if f.repeat_ then MPV_RENDER_FRAME_INFO_REPEAT else 0)
        ||| (if f.display_synced then MPV_RENDER_FRAME_INFO_BLOCK_VSYNC else 0)
      target_time := f.pts }

/-- Modelled from the spec (render.h lines 539-564): `get_info` answers only
`MPV_RENDER_PARAM_NEXT_FRAME_INFO`; other types fail with
`MPV_ERROR_NOT_IMPLEMENTED`. -/
def mpv_render_context_get_info (rc : RenderCtx) (t : Nat) (now : Int) :
    Except mpv_error mpv_render_frame_info :=
  if t = MPV_RENDER_PARAM_NEXT_FRAME_INFO then
    Except.ok (next_frame_info rc.vo now)
  else Except.error mpv_error.not_implemented

/-- Modelled from the spec (render.h lines 592-620): `update()` reports the
frame-ready bit. -/
def mpv_render_context_update (rc : RenderCtx) : RenderCtx × Nat :=
  (rc, if rc.update_pending then MPV_RENDER_UPDATE_FRAME else 0)

/-- Modelled from the spec (render.h lines 635-676 and 313-332): `render()`
implicitly pulls the next queued frame (or repeats the previous one),
blocks until the target time unless `MPV_RENDER_PARAM_BLOCK_FOR_TARGET_TIME`
is 0, consumes the frame-ready bit, counts the frame as rendered, and
succeeds; none of this depends on whether a frame-ready bit was pending or
on `MPV_RENDER_PARAM_SKIP_RENDERING`. Returns the new context, the error
code, and the blocking delay. -/
def mpv_render_context_render (rc : RenderCtx)
    (params : List mpv_render_param) (now : Int) :
    RenderCtx × mpv_error × Int :=
  let block : Bool :=
    match find_param params MPV_RENDER_PARAM_BLOCK_FOR_TARGET_TIME with
    | some (ParamData.int 0) => false
    | _ => true
  let p := next_to_present rc.vo now
  let delay : Int :=
    if block then
      match p.2 with
      | some f => max 0 (f.pts - now)
      | none => 0
    else 0
  ({ rc with vo := p.1, update_pending := false,
             rendered_count := rc.rendered_count + 1 },
   mpv_error.success, delay)

/-! Concrete sample inputs used to evaluate the model on closed instances. -/

/-- A plain timed driver with no capability bits. -/
def sampleDriver : vo_driver :=
  { encode := false, initially_blocked := false, caps := 0, untimed := false }

/-- An untimed (encode-mode) driver. -/
def untimedDriver : vo_driver :=
  { encode := true, initially_blocked := true, caps := 0, untimed := true }

/-- Two frames queued at pts 0 and 5. -/
def sampleOps : List VOOp :=
  [VOOp.queue 7 0 false false, VOOp.queue 8 5 false false]

/-- The state after queuing the two sample frames. -/
def sampleState : VOState := run (initState sampleDriver) sampleOps

/-- The first sample queue entry (image 7, id 1). -/
def sampleQ1 : QImg := { img := 7, id := 1, pts := 0, can_drop := false, display_synced := false }

/-- The second sample queue entry (image 8, id 2). -/
def sampleQ2 : QImg := { img := 8, id := 2, pts := 5, can_drop := false, display_synced := false }

/-- The frame `next_to_present` hands out at time 10 in the sample state. -/
def sampleFrame : vo_frame := mk_frame sampleState sampleQ1 [sampleQ2]

/-- A droppable queue entry for the drop-guard instances. -/
def sampleDroppableQ : QImg :=
  { img := 9, id := 1, pts := 0, can_drop := true, display_synced := false }

/-- A state whose head frame is droppable at time 1. -/
def sampleDropState : VOState :=
  { initState sampleDriver with queue := [sampleDroppableQ], next_frame_id := 2 }

/-- A backend with OpenGL built in and a satisfied version requirement. -/
def sampleBackend : Backend :=
  { builtin := [MPV_RENDER_API_TYPE_OPENGL], version_ok := true,
    driver := sampleDriver }

/-- A backend whose version/extension requirements fail. -/
def oldBackend : Backend :=
  { builtin := [MPV_RENDER_API_TYPE_OPENGL], version_ok := false,
    driver := sampleDriver }

/-- A well-formed parameter list selecting the OpenGL API. -/
def sampleParams : List mpv_render_param :=
  [{ type := MPV_RENDER_PARAM_API_TYPE,
     data := ParamData.str MPV_RENDER_API_TYPE_OPENGL }]

/-- A parameter list selecting an API type unknown to the binary. -/
def unknownApiParams : List mpv_render_param :=
  [{ type := MPV_RENDER_PARAM_API_TYPE, data := ParamData.str "vulkan" }]

/-- A render context over the sample state with no pending frame-ready bit. -/
def sampleRc : RenderCtx :=
  { api := MPV_RENDER_API_TYPE_OPENGL, advanced_control := false,
    vo := sampleState, update_pending := false, rendered_count := 0 }

/-- The sample state after presenting the first frame. -/
def midState : VOState := (next_to_present sampleState 10).1

/-- The frame presented second (image 8, id 2). -/
def presentedFrame2 : vo_frame := mk_frame midState sampleQ2 []

/-- The sample state after presenting both frames: empty queue, previous
frame recorded. -/
def presentedState : VOState := (next_to_present midState 10).1

/-- An untimed driver bound to a state with a droppable head frame. -/
def untimedState : VOState :=
  { initState untimedDriver with queue := [sampleDroppableQ], next_frame_id := 2 }

/-! Theorems. First, helper lemmas about the queue-id invariant. -/

theorem ids_consecutive_append {l : List QImg} {x : QImg} {base : Nat}
    (h : ids_consecutive l base) (hx : x.id = base + l.length) :
    ids_consecutive (l ++ [x]) base := by
  induction l generalizing base with
  | nil => simpa [ids_consecutive] using hx
  | cons q rest ih =>
    obtain ⟨h1, h2⟩ := h
    refine ⟨h1, ih h2 ?_⟩
    simp only [List.length_cons] at hx
    omega

theorem ids_consecutive_getElem? {l : List QImg} {base n : Nat} {q : QImg}
    (h : ids_consecutive l base) (hq : l[n]? = some q) :
    q.id = base + n := by
  induction l generalizing base n with
  | nil => simp at hq
  | cons p rest ih =>
    obtain ⟨h1, h2⟩ := h
    cases n with
    | zero =>
      simp only [List.getElem?_cons_zero, Option.some.injEq] at hq
      subst hq
      omega
    | succ m =>
      have := ih h2 (by simpa using hq)
      omega

theorem vo_queue_frame_spec (s : VOState) (img : MPImage) (pts : Int)
    (cd sync : Bool) :
    (vo_queue_frame s img pts cd sync = (s, none)) ∨
    (vo_queue_frame s img pts cd sync =
      ({ s with
           queue := s.queue ++ [⟨img, s.next_frame_id, pts, cd, sync⟩],
           next_frame_id := s.next_frame_id + 1 }, some s.next_frame_id)) := by
  unfold vo_queue_frame
  split
  · exact Or.inl rfl
  · exact Or.inr rfl

theorem drop_tick_next_frame_id (s : VOState) (now : Int) :
    (drop_tick s now).next_frame_id = s.next_frame_id := by
  unfold drop_tick
  rcases s.queue with _ | ⟨q, rest⟩
  · rfl
  · dsimp only
    split <;> rfl

theorem next_to_present_next_frame_id (s : VOState) (now : Int) :
    (next_to_present s now).1.next_frame_id = s.next_frame_id := by
  unfold next_to_present
  rcases hq : s.queue with _ | ⟨q, rest⟩
  · rcases s.prev_frame with _ | f <;> rfl
  · dsimp only
    split <;> rfl

theorem step_next_frame_id_mono (s : VOState) (op : VOOp) :
    s.next_frame_id ≤ (step s op).next_frame_id := by
  cases op with
  | queue img pts cd sync =>
    rcases vo_queue_frame_spec s img pts cd sync with h | h <;>
      simp [step, h]
  | render now =>
    show s.next_frame_id ≤ (render_step s now).1.next_frame_id
    unfold render_step
    split
    · rcases s.queue with _ | ⟨q, rest⟩ <;> simp
    · simp [next_to_present_next_frame_id, drop_tick_next_frame_id]
  | drop now => simp [step, drop_tick_next_frame_id]
  | swap t => exact le_of_eq rfl
  | seek => exact le_of_eq rfl
  | redraw =>
    show s.next_frame_id ≤ (vo_redraw s).next_frame_id
    unfold vo_redraw
    split <;> simp
  | wakeup => exact le_of_eq rfl
  | wait =>
    show s.next_frame_id ≤ (wait_events s).1.next_frame_id
    unfold wait_events
    split <;> simp

theorem mk_frame_frame_id (s : VOState) (q : QImg) (rest : List QImg) :
    (mk_frame s q rest).frame_id = q.id := rfl

theorem mk_frame_num_frames_pos (s : VOState) (q : QImg) (rest : List QImg) :
    0 < (mk_frame s q rest).num_frames := by
  simp [mk_frame]

theorem inv_initState (d : vo_driver) : Inv (initState d) := by
  refine ⟨⟨1, le_refl 1, trivial, rfl⟩, ?_⟩
  intro f hf
  simp [initState] at hf

theorem inv_vo_queue_frame (s : VOState) (img : MPImage) (pts : Int)
    (cd sync : Bool) (h : Inv s) :
    Inv (vo_queue_frame s img pts cd sync).1 := by
  obtain ⟨⟨base, hb, hcons, hnext⟩, hprev⟩ := h
  rcases vo_queue_frame_spec s img pts cd sync with hs | hs <;> rw [hs]
  · exact ⟨⟨base, hb, hcons, hnext⟩, hprev⟩
  · refine ⟨⟨base, hb, ?_, ?_⟩, ?_⟩
    · exact ids_consecutive_append hcons hnext
    · simp only [List.length_append, List.length_cons, List.length_nil]
      omega
    · intro f hf
      exact hprev f hf

theorem inv_drop_tick (s : VOState) (now : Int) (h : Inv s) :
    Inv (drop_tick s now) := by
  obtain ⟨⟨base, hb, hcons, hnext⟩, hprev⟩ := h
  obtain ⟨drv, qu, nfi, pf, dc, delc, est, ls, wr, wp⟩ := s
  dsimp only at hcons hnext hprev ⊢
  rcases qu with _ | ⟨q, rest⟩
  · exact ⟨⟨base, hb, hcons, hnext⟩, hprev⟩
  · obtain ⟨h1, h2⟩ := hcons
    dsimp only [drop_tick]
    split
    · refine ⟨⟨base + 1, by omega, h2, ?_⟩, ?_⟩
      · simp only [List.length_cons] at hnext ⊢
        omega
      · exact hprev
    · exact ⟨⟨base, hb, ⟨h1, h2⟩, hnext⟩, hprev⟩

theorem inv_next_to_present (s : VOState) (now : Int) (h : Inv s) :
    Inv (next_to_present s now).1 := by
  obtain ⟨⟨base, hb, hcons, hnext⟩, hprev⟩ := h
  obtain ⟨drv, qu, nfi, pf, dc, delc, est, ls, wr, wp⟩ := s
  dsimp only at hcons hnext hprev ⊢
  rcases qu with _ | ⟨q, rest⟩
  · rcases pf with _ | f
    · exact ⟨⟨base, hb, hcons, hnext⟩, hprev⟩
    · obtain ⟨hf1, hf2⟩ := hprev f rfl
      refine ⟨⟨base, hb, hcons, hnext⟩, ?_⟩
      intro g hg
      dsimp only [next_to_present] at hg
      simp only [Option.some.injEq] at hg
      subst hg
      exact ⟨hf1, hf2⟩
  · obtain ⟨h1, h2⟩ := hcons
    dsimp only [next_to_present]
    split
    · refine ⟨⟨base + 1, by omega, h2, ?_⟩, ?_⟩
      · simp only [List.length_cons] at hnext ⊢
        omega
      · intro g hg
        simp only [Option.some.injEq] at hg
        subst hg
        refine ⟨?_, mk_frame_num_frames_pos _ q rest⟩
        rw [mk_frame_frame_id]
        omega
    · exact ⟨⟨base, hb, ⟨h1, h2⟩, hnext⟩, hprev⟩

theorem inv_render_step (s : VOState) (now : Int) (h : Inv s) :
    Inv (render_step s now).1 := by
  rcases hu : s.driver.untimed with _ | _
  · have : (render_step s now).1 = (next_to_present (drop_tick s now) now).1 := by
      unfold render_step
      rw [hu]
      rfl
    rw [this]
    exact inv_next_to_present _ now (inv_drop_tick s now h)
  · obtain ⟨⟨base, hb, hcons, hnext⟩, hprev⟩ := h
    obtain ⟨drv, qu, nfi, pf, dc, delc, est, ls, wr, wp⟩ := s
    dsimp only at hcons hnext hprev hu ⊢
    dsimp only [render_step]
    rw [if_pos hu]
    rcases qu with _ | ⟨q, rest⟩
    · exact ⟨⟨base, hb, hcons, hnext⟩, hprev⟩
    · obtain ⟨h1, h2⟩ := hcons
      refine ⟨⟨base + 1, by omega, h2, ?_⟩, ?_⟩
      · simp only [List.length_cons] at hnext ⊢
        omega
      · intro g hg
        simp only [Option.some.injEq] at hg
        subst hg
        refine ⟨?_, mk_frame_num_frames_pos _ q rest⟩
        rw [mk_frame_frame_id]
        omega

theorem inv_vo_seek_reset (s : VOState) (h : Inv s) : Inv (vo_seek_reset s) := by
  obtain ⟨⟨base, hb, hcons, hnext⟩, hprev⟩ := h
  refine ⟨⟨s.next_frame_id, by omega, trivial, rfl⟩, ?_⟩
  intro f hf
  exact hprev f hf

theorem inv_step (s : VOState) (op : VOOp) (h : Inv s) : Inv (step s op) := by
  cases op with
  | queue img pts cd sync => exact inv_vo_queue_frame s img pts cd sync h
  | render now => exact inv_render_step s now h
  | drop now => exact inv_drop_tick s now h
  | swap t =>
    obtain ⟨⟨base, hb, hcons, hnext⟩, hprev⟩ := h
    exact ⟨⟨base, hb, hcons, hnext⟩, fun f hf => hprev f hf⟩
  | seek => exact inv_vo_seek_reset s h
  | redraw =>
    obtain ⟨⟨base, hb, hcons, hnext⟩, hprev⟩ := h
    show Inv (vo_redraw s)
    unfold vo_redraw
    split
    · exact ⟨⟨base, hb, hcons, hnext⟩, hprev⟩
    · exact ⟨⟨base, hb, hcons, hnext⟩, fun f hf => hprev f hf⟩
  | wakeup =>
    obtain ⟨⟨base, hb, hcons, hnext⟩, hprev⟩ := h
    exact ⟨⟨base, hb, hcons, hnext⟩, fun f hf => hprev f hf⟩
  | wait =>
    obtain ⟨⟨base, hb, hcons, hnext⟩, hprev⟩ := h
    show Inv (wait_events s).1
    unfold wait_events
    split
    · exact ⟨⟨base, hb, hcons, hnext⟩, fun f hf => hprev f hf⟩
    · exact ⟨⟨base, hb, hcons, hnext⟩, hprev⟩

theorem inv_run (s : VOState) (ops : List VOOp) (h : Inv s) :
    Inv (run s ops) := by
  induction ops generalizing s with
  | nil => exact h
  | cons op rest ih => exact ih (step s op) (inv_step s op h)

theorem run_ids_lower (ops : List VOOp) :
    ∀ (s : VOState), ∀ m ∈ run_ids s ops, s.next_frame_id ≤ m := by
  induction ops with
  | nil =>
    intro s m hm
    simp [run_ids] at hm
  | cons op rest ih =>
    intro s m hm
    cases op with
    | queue img pts cd sync =>
      rcases vo_queue_frame_spec s img pts cd sync with hv | hv <;>
        simp only [run_ids] at hm <;> rw [hv] at hm
      · exact ih s m hm
      · rcases List.mem_cons.mp hm with rfl | hm2
        · exact le_refl _
        · have h2 := ih _ m hm2
          have h3 : ({ s with
              queue := s.queue ++ [⟨img, s.next_frame_id, pts, cd, sync⟩],
              next_frame_id := s.next_frame_id + 1 } : VOState).next_frame_id
              = s.next_frame_id + 1 := rfl
          omega
    | render now =>
      simp only [run_ids] at hm
      exact le_trans (step_next_frame_id_mono s (VOOp.render now)) (ih _ m hm)
    | drop now =>
      simp only [run_ids] at hm
      exact le_trans (step_next_frame_id_mono s (VOOp.drop now)) (ih _ m hm)
    | swap t =>
      simp only [run_ids] at hm
      exact le_trans (step_next_frame_id_mono s (VOOp.swap t)) (ih _ m hm)
    | seek =>
      simp only [run_ids] at hm
      exact le_trans (step_next_frame_id_mono s VOOp.seek) (ih _ m hm)
    | redraw =>
      simp only [run_ids] at hm
      exact le_trans (step_next_frame_id_mono s VOOp.redraw) (ih _ m hm)
    | wakeup =>
      simp only [run_ids] at hm
      exact le_trans (step_next_frame_id_mono s VOOp.wakeup) (ih _ m hm)
    | wait =>
      simp only [run_ids] at hm
      exact le_trans (step_next_frame_id_mono s VOOp.wait) (ih _ m hm)

theorem run_ids_pairwise (ops : List VOOp) :
    ∀ s : VOState, List.Pairwise (· < ·) (run_ids s ops) := by
  induction ops with
  | nil =>
    intro s
    simp [run_ids]
  | cons op rest ih =>
    intro s
    cases op with
    | queue img pts cd sync =>
      rcases vo_queue_frame_spec s img pts cd sync with hv | hv <;>
        simp only [run_ids] <;> rw [hv]
      · exact ih s
      · refine List.Pairwise.cons ?_ (ih _)
        intro m hm
        have h2 := run_ids_lower rest _ m hm
        have h3 : ({ s with
            queue := s.queue ++ [⟨img, s.next_frame_id, pts, cd, sync⟩],
            next_frame_id := s.next_frame_id + 1 } : VOState).next_frame_id
            = s.next_frame_id + 1 := rfl
        omega
    | render now => simp only [run_ids]; exact ih _
    | drop now => simp only [run_ids]; exact ih _
    | swap t => simp only [run_ids]; exact ih _
    | seek => simp only [run_ids]; exact ih _
    | redraw => simp only [run_ids]; exact ih _
    | wakeup => simp only [run_ids]; exact ih _
    | wait => simp only [run_ids]; exact ih _

theorem next_to_present_emits (s : VOState) (now : Int) (f : vo_frame)
    (h : Inv s) (hf : (next_to_present s now).2 = some f) :
    f.frame_id ≠ 0 ∧ 0 < f.num_frames := by
  obtain ⟨⟨base, hb, hcons, hnext⟩, hprev⟩ := h
  obtain ⟨drv, qu, nfi, pf, dc, delc, est, ls, wr, wp⟩ := s
  dsimp only at hcons hnext hprev
  rcases qu with _ | ⟨q, rest⟩
  · rcases pf with _ | g
    · dsimp only [next_to_present] at hf
      exact absurd hf (by simp)
    · obtain ⟨hg1, hg2⟩ := hprev g rfl
      dsimp only [next_to_present] at hf
      simp only [Option.some.injEq] at hf
      subst hf
      exact ⟨show g.frame_id ≠ 0 by omega, hg2⟩
  · obtain ⟨h1, h2⟩ := hcons
    dsimp only [next_to_present] at hf
    split at hf
    · simp only [Option.some.injEq] at hf
      subst hf
      refine ⟨?_, mk_frame_num_frames_pos _ q rest⟩
      rw [mk_frame_frame_id]
      omega
    · exact absurd hf (by simp)

theorem lookahead_take_map (l : List QImg) (k m : Nat) (hm : m < k) :
    ((l.take k).map QImg.img)[m]? = (l[m]?).map QImg.img := by
  induction l generalizing k m with
  | nil => simp
  | cons q rest ih =>
    cases k with
    | zero => omega
    | succ k2 =>
      cases m with
      | zero => simp
      | succ m2 =>
        simp only [List.take_succ_cons, List.map_cons, List.getElem?_cons_succ]
        exact ih k2 m2 (by omega)

theorem next_to_present_lookahead (s : VOState) (now : Int) (q : QImg)
    (rest : List QImg) (f : vo_frame) (h : Inv s) (hq : s.queue = q :: rest)
    (hle : q.pts ≤ now) (hf : (next_to_present s now).2 = some f) :
    ∀ n, n < f.num_frames →
      ∃ x, s.queue[n]? = some x ∧ x.id = f.frame_id + n ∧
           f.frames[n]? = some x.img := by
  obtain ⟨⟨base, hb, hcons, hnext⟩, hprev⟩ := h
  rw [hq] at hcons
  obtain ⟨h1, h2⟩ := hcons
  have hfe : f = mk_frame s q rest := by
    unfold next_to_present at hf
    rw [hq] at hf
    dsimp only at hf
    rw [if_pos hle] at hf
    exact (Option.some.inj hf).symm
  intro n hn
  rw [hfe] at hn
  simp only [mk_frame] at hn
  cases n with
  | zero =>
    refine ⟨q, by simp [hq], ?_, ?_⟩
    · rw [hfe, mk_frame_frame_id]
      omega
    · rw [hfe]
      simp [mk_frame]
  | succ m =>
    have hm : m < min rest.length (VO_MAX_REQ_FRAMES - 1) := by omega
    have hm1 : m < rest.length := lt_of_lt_of_le hm (Nat.min_le_left _ _)
    have hm2 : m < VO_MAX_REQ_FRAMES - 1 := lt_of_lt_of_le hm (Nat.min_le_right _ _)
    have hx : rest[m]? = some (rest.get ⟨m, hm1⟩) := by
      simp [List.getElem?_eq_getElem hm1]
    refine ⟨rest.get ⟨m, hm1⟩, ?_, ?_, ?_⟩
    · rw [hq]
      simp only [List.getElem?_cons_succ]
      exact hx
    · have := ids_consecutive_getElem? h2 hx
      rw [hfe, mk_frame_frame_id]
      omega
    · rw [hfe]
      show (mk_frame s q rest).frames[m + 1]? = _
      simp only [mk_frame, List.getElem?_cons_succ]
      rw [lookahead_take_map rest _ m hm2, hx]
      rfl

/-- C1: for every `vo_frame` the model emits with `num_frames > 0`, its
`frame_id` is nonzero; across every sequence of `queue_frame` calls the
assigned frame ids are strictly increasing and never repeat; no operation
(drop, seek/reconfig included) ever rewinds the id source; and the frame
offered for presentation carries id `frame_id + n` in its `frames[n]`
lookahead slot. -/
theorem c1_frame_ids (d : vo_driver) (ops : List VOOp) :
    List.Pairwise (· < ·) (run_ids (initState d) ops) ∧
    (∀ op, (run (initState d) ops).next_frame_id ≤
        (step (run (initState d) ops) op).next_frame_id) ∧
    (∀ now f, (next_to_present (run (initState d) ops) now).2 = some f →
        0 < f.num_frames → f.frame_id ≠ 0) ∧
    (∀ now q rest f, (run (initState d) ops).queue = q :: rest →
        q.pts ≤ now →
        (next_to_present (run (initState d) ops) now).2 = some f →
        ∀ n, n < f.num_frames →
          ∃ x, (run (initState d) ops).queue[n]? = some x ∧
               x.id = f.frame_id + n ∧ f.frames[n]? = some x.img) := by
  have hinv : Inv (run (initState d) ops) :=
    inv_run (initState d) ops (inv_initState d)
  refine ⟨run_ids_pairwise ops (initState d),
          fun op => step_next_frame_id_mono _ op, ?_, ?_⟩
  · intro now f hf _
    exact (next_to_present_emits _ now f hinv hf).1
  · intro now q rest f hq hle hf
    exact next_to_present_lookahead _ now q rest f hinv hq hle hf

/-- C1 witness: concrete two-frame run — the presented frame has a nonzero
id, the assigned ids are strictly increasing, and the lookahead slot 1
carries id `frame_id + 1`. -/
theorem c1_frame_ids_witness :
    (next_to_present sampleState 10).2 = some sampleFrame ∧
    sampleFrame.frame_id ≠ 0 ∧
    List.Pairwise (· < ·) (run_ids (initState sampleDriver) sampleOps) ∧
    sampleState.queue[1]? = some sampleQ2 ∧
    sampleQ2.id = sampleFrame.frame_id + 1 ∧
    sampleFrame.frames[1]? = some sampleQ2.img := by
  have h := c1_frame_ids sampleDriver sampleOps
  have hq : sampleState.queue = sampleQ1 :: [sampleQ2] := by decide
  have hf : (next_to_present sampleState 10).2 = some sampleFrame := by decide
  obtain ⟨x, hx1, hx2, hx3⟩ :=
    h.2.2.2 10 sampleQ1 [sampleQ2] sampleFrame hq (by decide) hf 1 (by decide)
  have hxq : x = sampleQ2 := by
    have hcomp : (run (initState sampleDriver) sampleOps).queue[1]? =
        some sampleQ2 := by decide
    rw [hx1] at hcomp
    exact Option.some.inj hcomp
  subst hxq
  exact ⟨hf, h.2.2.1 10 sampleFrame hf (by decide), h.1, hx1, hx2, hx3⟩

/-- C2: once a frame has been presented (the previous frame is recorded),
`next_to_present` on an empty queue re-offers exactly that frame with
`redraw=true, repeat=true` — never an empty result. -/
theorem c2_empty_queue_redraw (s : VOState) (now : Int) (f : vo_frame)
    (hq : s.queue = []) (hp : s.prev_frame = some f) :
    (next_to_present s now).2 =
      some { f with redraw := true, repeat_ := true } ∧
    (next_to_present s now).2 ≠ none := by
  obtain ⟨drv, qu, nfi, pf, dc, delc, est, ls, wr, wp⟩ := s
  dsimp only at hq hp
  subst hq
  subst hp
  exact ⟨rfl, by simp [next_to_present]⟩

/-- C2 witness: after presenting both sample frames the empty queue
re-offers the second frame as a redraw/repeat. -/
theorem c2_empty_queue_redraw_witness :
    (next_to_present presentedState 20).2 =
      some { presentedFrame2 with redraw := true, repeat_ := true } :=
  (c2_empty_queue_redraw presentedState 20 presentedFrame2
    (by decide) (by decide)).1

/-- C4: `vo_seek_reset` clears the vsync estimator to its seed state and
flushes the queue, while the drop counter (and the delayed counter) read
through `vo_get_drop_count` are unchanged by the seek itself. -/
theorem c4_seek_reset_effects (s : VOState) :
    (vo_seek_reset s).estimator = seedEstimator ∧
    (vo_seek_reset s).queue = [] ∧
    vo_get_drop_count (vo_seek_reset s) = vo_get_drop_count s ∧
    (vo_seek_reset s).delayed_count = s.delayed_count :=
  ⟨rfl, rfl, rfl, rfl⟩

/-- C10: the OSD idle-redraw path hands the driver a frame whose `current`
is NULL (consumers must handle it); with `current = NULL` the id contract
places no constraint on `frame_id`, while every frame the queue engine
emits satisfies the contract. -/
theorem c10_null_current (s : VOState) (now : Int) (f : vo_frame) :
    osd_idle_redraw_frame.current = none ∧
    (∀ id, vo_frame_id_ok { osd_idle_redraw_frame with frame_id := id }) ∧
    (Inv s → (next_to_present s now).2 = some f → vo_frame_id_ok f) := by
  refine ⟨rfl, ?_, ?_⟩
  · intro id hcur
    exact absurd rfl hcur
  · intro hinv hf _ _
    exact (next_to_present_emits s now f hinv hf).1

/-- C10 witness: the sample presented frame satisfies the id contract, and
the idle OSD frame with an arbitrary id does as well. -/
theorem c10_null_current_witness :
    vo_frame_id_ok sampleFrame ∧
    vo_frame_id_ok { osd_idle_redraw_frame with frame_id := 5 } := by
  have h := c10_null_current sampleState 10 sampleFrame
  exact ⟨h.2.2 (inv_run (initState sampleDriver) sampleOps
      (inv_initState sampleDriver)) (by decide), h.2.1 5⟩

theorem next_to_present_drop_count (s : VOState) (now : Int) :
    (next_to_present s now).1.drop_count = s.drop_count := by
  obtain ⟨drv, qu, nfi, pf, dc, delc, est, ls, wr, wp⟩ := s
  rcases qu with _ | ⟨q, rest⟩
  · rcases pf with _ | f <;> rfl
  · dsimp only [next_to_present]
    split <;> rfl

theorem drop_tick_changed (s : VOState) (now : Int)
    (h : (drop_tick s now).drop_count ≠ s.drop_count) :
    ∃ q rest, s.queue = q :: rest ∧ q.can_drop = true ∧
      slot_elapsed s q now = true ∧
      s.driver.caps &&& VO_CAP_FRAMEDROP = 0 ∧ s.driver.untimed = false ∧
      (drop_tick s now).drop_count = s.drop_count + 1 := by
  obtain ⟨drv, qu, nfi, pf, dc, delc, est, ls, wr, wp⟩ := s
  dsimp only at h ⊢
  rcases qu with _ | ⟨q, rest⟩
  · exact absurd rfl h
  · dsimp only [drop_tick] at h ⊢
    by_cases hd : frame_droppable
        ⟨drv, q :: rest, nfi, pf, dc, delc, est, ls, wr, wp⟩ q now = true
    · have hd2 := hd
      simp only [frame_droppable, Bool.and_eq_true, decide_eq_true_eq,
        Bool.not_eq_true'] at hd2
      obtain ⟨⟨⟨hcd, hse⟩, hcaps⟩, hunt⟩ := hd2
      refine ⟨q, rest, rfl, hcd, hse, hcaps, hunt, ?_⟩
      rw [if_pos hd]
    · rw [if_neg hd] at h
      exact absurd rfl h

theorem render_step_untimed_drop_count (s : VOState) (now : Int)
    (hu : s.driver.untimed = true) :
    (render_step s now).1.drop_count = s.drop_count := by
  obtain ⟨drv, qu, nfi, pf, dc, delc, est, ls, wr, wp⟩ := s
  dsimp only at hu
  dsimp only [render_step]
  rw [if_pos hu]
  rcases qu with _ | ⟨q, rest⟩ <;> rfl

/-- C3: the drop counter moves only when the timing engine drops the queue
head, which requires `can_drop`, an elapsed display slot, a driver without
`VO_CAP_FRAMEDROP` and a timed driver; a head with `can_drop=false` is
never counted, and presenting or repeating a frame never touches the
counter. -/
theorem c3_drop_guard (s : VOState) (op : VOOp) :
    (vo_get_drop_count (step s op) ≠ vo_get_drop_count s →
      ∃ now q rest, (op = VOOp.drop now ∨ op = VOOp.render now) ∧
        s.queue = q :: rest ∧ q.can_drop = true ∧
        slot_elapsed s q now = true ∧
        s.driver.caps &&& VO_CAP_FRAMEDROP = 0 ∧
        s.driver.untimed = false ∧
        vo_get_drop_count (step s op) = vo_get_drop_count s + 1) ∧
    (∀ now q rest, s.queue = q :: rest → q.can_drop = false →
      vo_get_drop_count (drop_tick s now) = vo_get_drop_count s) ∧
    (∀ now, vo_get_drop_count (next_to_present s now).1 =
      vo_get_drop_count s) := by
  refine ⟨?_, ?_, fun now => next_to_present_drop_count s now⟩
  · intro hne
    cases op with
    | queue img pts cd sync =>
      rcases vo_queue_frame_spec s img pts cd sync with hv | hv <;>
        rw [show step s (VOOp.queue img pts cd sync) =
          (vo_queue_frame s img pts cd sync).1 from rfl, hv] at hne <;>
        exact absurd rfl hne
    | render now =>
      rcases hu : s.driver.untimed with _ | _
      · have hst : vo_get_drop_count (step s (VOOp.render now)) =
            (drop_tick s now).drop_count := by
          show (render_step s now).1.drop_count = _
          unfold render_step
          rw [hu]
          show (next_to_present (drop_tick s now) now).1.drop_count = _
          exact next_to_present_drop_count _ now
        rw [hst] at hne
        obtain ⟨q, rest, hq, hcd, hse, hcaps, hunt, hcount⟩ :=
          drop_tick_changed s now hne
        exact ⟨now, q, rest, Or.inr rfl, hq, hcd, hse, hcaps, rfl,
          by rw [hst, hcount]; rfl⟩
      · exact absurd (render_step_untimed_drop_count s now hu) hne
    | drop now =>
      obtain ⟨q, rest, hq, hcd, hse, hcaps, hunt, hcount⟩ :=
        drop_tick_changed s now hne
      exact ⟨now, q, rest, Or.inl rfl, hq, hcd, hse, hcaps, hunt, hcount⟩
    | swap t => exact absurd rfl hne
    | seek => exact absurd rfl hne
    | redraw =>
      have : vo_get_drop_count (step s VOOp.redraw) = vo_get_drop_count s := by
        show (vo_redraw s).drop_count = s.drop_count
        unfold vo_redraw
        split <;> rfl
      exact absurd this hne
    | wakeup => exact absurd rfl hne
    | wait =>
      have : vo_get_drop_count (step s VOOp.wait) = vo_get_drop_count s := by
        show (wait_events s).1.drop_count = s.drop_count
        unfold wait_events
        split <;> rfl
      exact absurd this hne
  · intro now q rest hq hcd
    obtain ⟨drv, qu, nfi, pf, dc, delc, est, ls, wr, wp⟩ := s
    dsimp only at hq
    subst hq
    dsimp only [drop_tick]
    rw [if_neg]
    simp only [frame_droppable, hcd, Bool.false_and, Bool.and_eq_true]
    simp

/-- C3 witness: a droppable head at time 1 is counted exactly once; a
`can_drop=false` head and a repeat/present never move the counter. -/
theorem c3_drop_guard_witness :
    vo_get_drop_count (step sampleDropState (VOOp.drop 1)) =
      vo_get_drop_count sampleDropState + 1 ∧
    vo_get_drop_count (drop_tick sampleState 1) =
      vo_get_drop_count sampleState ∧
    vo_get_drop_count (next_to_present sampleState 10).1 =
      vo_get_drop_count sampleState := by
  have h := c3_drop_guard sampleDropState (VOOp.drop 1)
  obtain ⟨now, q, rest, hop, hq, hcd, hse, hcaps, hunt, hcount⟩ :=
    h.1 (by decide)
  refine ⟨hcount, ?_, ?_⟩
  · exact (c3_drop_guard sampleState (VOOp.drop 1)).2.1 1 sampleQ1 [sampleQ2]
      (by decide) (by decide)
  · exact (c3_drop_guard sampleState (VOOp.drop 1)).2.2 10

theorem drop_tick_wakeup_pending (s : VOState) (now : Int) :
    (drop_tick s now).wakeup_pending = s.wakeup_pending := by
  obtain ⟨drv, qu, nfi, pf, dc, delc, est, ls, wr, wp⟩ := s
  rcases qu with _ | ⟨q, rest⟩
  · rfl
  · dsimp only [drop_tick]
    split <;> rfl

theorem next_to_present_wakeup_pending (s : VOState) (now : Int) :
    (next_to_present s now).1.wakeup_pending = s.wakeup_pending := by
  obtain ⟨drv, qu, nfi, pf, dc, delc, est, ls, wr, wp⟩ := s
  rcases qu with _ | ⟨q, rest⟩
  · rcases pf with _ | f <;> rfl
  · dsimp only [next_to_present]
    split <;> rfl

theorem step_preserves_wakeup_pending (s : VOState) (op : VOOp)
    (hop : op ≠ VOOp.wait) (h : s.wakeup_pending = true) :
    (step s op).wakeup_pending = true := by
  cases op with
  | queue img pts cd sync =>
    rcases vo_queue_frame_spec s img pts cd sync with hv | hv <;>
      rw [show step s (VOOp.queue img pts cd sync) =
        (vo_queue_frame s img pts cd sync).1 from rfl, hv] <;> exact h
  | render now =>
    show (render_step s now).1.wakeup_pending = true
    rcases hu : s.driver.untimed with _ | _
    · have : (render_step s now).1 =
          (next_to_present (drop_tick s now) now).1 := by
        unfold render_step
        rw [hu]
        rfl
      rw [this, next_to_present_wakeup_pending, drop_tick_wakeup_pending]
      exact h
    · obtain ⟨drv, qu, nfi, pf, dc, delc, est, ls, wr, wp⟩ := s
      dsimp only at hu h ⊢
      dsimp only [render_step]
      rw [if_pos hu]
      rcases qu with _ | ⟨q, rest⟩ <;> exact h
  | drop now =>
    show (drop_tick s now).wakeup_pending = true
    rw [drop_tick_wakeup_pending]
    exact h
  | swap t => exact h
  | seek => exact h
  | redraw =>
    show (vo_redraw s).wakeup_pending = true
    unfold vo_redraw
    split <;> exact h
  | wakeup => rfl
  | wait => exact absurd rfl hop

theorem run_preserves_wakeup_pending (ops : List VOOp) :
    ∀ s : VOState, (∀ op ∈ ops, op ≠ VOOp.wait) →
      s.wakeup_pending = true → (run s ops).wakeup_pending = true := by
  induction ops with
  | nil => intro s _ h; exact h
  | cons op rest ih =>
    intro s hno h
    exact ih (step s op) (fun o ho => hno o (List.mem_cons_of_mem op ho))
      (step_preserves_wakeup_pending s op (hno op (List.mem_cons_self op rest)) h)

/-- C6: a `wakeup` with no wait pending is never lost — after any
wait-free sequence of dispatcher operations containing a wakeup, the next
`wait_events` returns immediately and consumes the pending bit; a single
wakeup interrupts at most one wait. -/
theorem c6_wakeup_not_lost (s : VOState) (ops : List VOOp)
    (hmem : VOOp.wakeup ∈ ops) (hnowait : ∀ op ∈ ops, op ≠ VOOp.wait) :
    (wait_events (run s ops)).2 = true ∧
    (wait_events (run s ops)).1.wakeup_pending = false ∧
    (∀ t : VOState, (wait_events ((wait_events (vo_wakeup t)).1)).2 = false) := by
  obtain ⟨l1, l2, rfl⟩ := List.append_of_mem hmem
  have hrun : run s (l1 ++ VOOp.wakeup :: l2) =
      run (vo_wakeup (run s l1)) l2 := by
    show List.foldl step s (l1 ++ VOOp.wakeup :: l2) = _
    rw [List.foldl_append]
    rfl
  have hl2 : ∀ op ∈ l2, op ≠ VOOp.wait := by
    intro o ho
    exact hnowait o (by simp [ho])
  have hpend : (run s (l1 ++ VOOp.wakeup :: l2)).wakeup_pending = true := by
    rw [hrun]
    exact run_preserves_wakeup_pending l2 _ hl2 rfl
  refine ⟨?_, ?_, ?_⟩
  · unfold wait_events
    rw [if_pos hpend]
  · unfold wait_events
    rw [if_pos hpend]
  · intro t
    have h1 : (wait_events (vo_wakeup t)).1 =
        { t with wakeup_pending := false } := by
      unfold wait_events vo_wakeup
      rw [if_pos rfl]
    rw [h1]
    unfold wait_events
    rw [if_neg]
    simp

/-- C6 witness: a wakeup followed by unrelated operations still makes the
next wait return immediately. -/
theorem c6_wakeup_not_lost_witness :
    (wait_events (run sampleState [VOOp.wakeup, VOOp.swap 3])).2 = true :=
  (c6_wakeup_not_lost sampleState [VOOp.wakeup, VOOp.swap 3]
    (by decide) (by decide)).1

/-- C7: `get_info(NEXT_FRAME_INFO)` describes only the next frame: when
there is no next frame the PRESENT flag is unset (and with neither a queued
frame nor a previous one, the flags are all clear), and each of REDRAW,
REPEAT, BLOCK_VSYNC implies PRESENT. -/
theorem c7_next_frame_info_flags (s : VOState) (now : Int) :
    ((next_to_present s now).2 = none →
      (next_frame_info s now).flags &&& MPV_RENDER_FRAME_INFO_PRESENT = 0) ∧
    ((next_frame_info s now).flags &&&
        (MPV_RENDER_FRAME_INFO_REDRAW ||| MPV_RENDER_FRAME_INFO_REPEAT |||
          MPV_RENDER_FRAME_INFO_BLOCK_VSYNC) ≠ 0 →
      (next_frame_info s now).flags &&& MPV_RENDER_FRAME_INFO_PRESENT ≠ 0) ∧
    (s.queue = [] → s.prev_frame = none →
      (next_frame_info s now).flags = 0) := by
  have hempty : s.queue = [] → s.prev_frame = none →
      (next_to_present s now).2 = none := by
    intro hq hp
    obtain ⟨drv, qu, nfi, pf, dc, delc, est, ls, wr, wp⟩ := s
    dsimp only at hq hp
    subst hq
    subst hp
    rfl
  unfold next_frame_info
  rcases hnf : (next_to_present s now).2 with _ | f
  · refine ⟨fun _ => rfl, ?_, fun _ _ => rfl⟩
    intro hb
    exact absurd rfl hb
  · obtain ⟨fpts, fdur, fvi, fvo, fifd, fnv, fred, frep, fstill, fds, fcd,
      fcur, fnf, ffr, fid⟩ := f
    refine ⟨?_, ?_, ?_⟩
    · intro hc
      exact absurd hc (by simp)
    · dsimp only
      rcases fred <;> rcases frep <;> rcases fds <;> intro h <;> decide
    · intro hq hp
      rw [hempty hq hp] at hnf
      exact absurd hnf (by simp)

/-- C7 witness: a fresh state reports no PRESENT bit and all-clear flags;
the redraw re-offer after presenting sets REDRAW/REPEAT together with
PRESENT. -/
theorem c7_next_frame_info_flags_witness :
    (next_frame_info (initState sampleDriver) 0).flags &&&
      MPV_RENDER_FRAME_INFO_PRESENT = 0 ∧
    (next_frame_info (initState sampleDriver) 0).flags = 0 ∧
    (next_frame_info presentedState 20).flags &&&
      MPV_RENDER_FRAME_INFO_PRESENT ≠ 0 := by
  have h1 := c7_next_frame_info_flags (initState sampleDriver) 0
  have h2 := c7_next_frame_info_flags presentedState 20
  exact ⟨h1.1 (by decide), h1.2.2 (by decide) (by decide),
    h2.2.1 (by decide)⟩

/-- C8: a driver with the `untimed` flag set never drops (the drop
counter is untouched and no frame is ever droppable), never issues a
redraw (emitted frames are fresh and redraw requests are discarded), and
applies no pacing delay: frames are pushed as fast as the driver accepts
them. -/
theorem c8_untimed_no_drop_no_redraw (s : VOState) (now : Int)
    (hu : s.driver.untimed = true) :
    (render_step s now).1.drop_count = s.drop_count ∧
    (render_step s now).2.2 = 0 ∧
    (∀ f, (render_step s now).2.1 = some f →
      f.redraw = false ∧ f.repeat_ = false) ∧
    vo_redraw s = s ∧
    (∀ (q : QImg) (t : Int), frame_droppable s q t = false) ∧
    vo_get_drop_count (drop_tick s now) = vo_get_drop_count s := by
  have hdroppable : ∀ (q : QImg) (t : Int), frame_droppable s q t = false := by
    intro q t
    simp [frame_droppable, hu]
  refine ⟨render_step_untimed_drop_count s now hu, ?_, ?_, ?_, hdroppable, ?_⟩
  · obtain ⟨drv, qu, nfi, pf, dc, delc, est, ls, wr, wp⟩ := s
    dsimp only at hu
    dsimp only [render_step]
    rw [if_pos hu]
    rcases qu with _ | ⟨q, rest⟩ <;> rfl
  · intro f hf
    obtain ⟨drv, qu, nfi, pf, dc, delc, est, ls, wr, wp⟩ := s
    dsimp only at hu
    dsimp only [render_step] at hf
    rw [if_pos hu] at hf
    rcases qu with _ | ⟨q, rest⟩
    · exact absurd hf (by simp)
    · dsimp only at hf
      simp only [Option.some.injEq] at hf
      subst hf
      exact ⟨rfl, rfl⟩
  · unfold vo_redraw
    rw [if_pos hu]
  · obtain ⟨drv, qu, nfi, pf, dc, delc, est, ls, wr, wp⟩ := s
    rcases qu with _ | ⟨q, rest⟩
    · rfl
    · show (drop_tick _ now).drop_count = dc
      dsimp only [drop_tick]
      rw [if_neg]
      rw [hdroppable q now]
      simp

/-- C8 witness: with the untimed sample state, rendering pops the head
with no pacing delay, the drop counter stays 0, the droppable check is
false even for a `can_drop` frame, and redraw requests are ignored. -/
theorem c8_untimed_no_drop_no_redraw_witness :
    (render_step untimedState 5).1.drop_count = untimedState.drop_count ∧
    (render_step untimedState 5).2.2 = 0 ∧
    vo_redraw untimedState = untimedState ∧
    frame_droppable untimedState sampleDroppableQ 100 = false := by
  have h := c8_untimed_no_drop_no_redraw untimedState 5 (by decide)
  exact ⟨h.1, h.2.1, h.2.2.2.1, h.2.2.2.2.1 sampleDroppableQ 100⟩

/-- C5: `mpv_render_context_create` answers each failure class with its own
typed error code — malformed parameter list (missing/ill-typed API type)
with `MPV_ERROR_INVALID_PARAMETER`, an API type not built in with
`MPV_ERROR_NOT_IMPLEMENTED`, an unsupported backend version with
`MPV_ERROR_UNSUPPORTED` — the three codes are pairwise distinct, and every
outcome is a typed result (construction is never fatal). -/
theorem c5_create_error_codes (b : Backend) (params : List mpv_render_param) :
    ((∀ api, find_param params MPV_RENDER_PARAM_API_TYPE ≠
        some (ParamData.str api)) →
      mpv_render_context_create b params =
        Except.error mpv_error.invalid_parameter) ∧
    (∀ api, find_param params MPV_RENDER_PARAM_API_TYPE =
        some (ParamData.str api) → api ∉ b.builtin →
      mpv_render_context_create b params =
        Except.error mpv_error.not_implemented) ∧
    (∀ api, find_param params MPV_RENDER_PARAM_API_TYPE =
        some (ParamData.str api) → api ∈ b.builtin → b.version_ok = false →
      mpv_render_context_create b params =
        Except.error mpv_error.unsupported) ∧
    (mpv_error.unsupported ≠ mpv_error.not_implemented ∧
     mpv_error.unsupported ≠ mpv_error.invalid_parameter ∧
     mpv_error.not_implemented ≠ mpv_error.invalid_parameter) ∧
    ((∃ ctx, mpv_render_context_create b params = Except.ok ctx) ∨
     mpv_render_context_create b params =
       Except.error mpv_error.unsupported ∨
     mpv_render_context_create b params =
       Except.error mpv_error.not_implemented ∨
     mpv_render_context_create b params =
       Except.error mpv_error.invalid_parameter) := by
  refine ⟨?_, ?_, ?_, ⟨by decide, by decide, by decide⟩, ?_⟩
  · intro hno
    unfold mpv_render_context_create
    rcases hfp : find_param params MPV_RENDER_PARAM_API_TYPE with _ | pd
    · rfl
    · cases pd with
      | str api => exact absurd hfp (hno api)
      | int n => rfl
      | ptr tag => rfl
      | null => rfl
  · intro api hfp hmem
    unfold mpv_render_context_create
    rw [hfp]
    dsimp only
    rw [if_neg hmem]
  · intro api hfp hmem hver
    unfold mpv_render_context_create
    rw [hfp]
    dsimp only
    rw [if_pos hmem, if_neg (by rw [hver]; simp)]
  · unfold mpv_render_context_create
    rcases hfp : find_param params MPV_RENDER_PARAM_API_TYPE with _ | pd
    · right; right; right; rfl
    · cases pd with
      | str api =>
        dsimp only
        by_cases hmem : api ∈ b.builtin
        · rw [if_pos hmem]
          by_cases hver : b.version_ok = true
          · rw [if_pos hver]
            exact Or.inl ⟨_, rfl⟩
          · rw [if_neg hver]
            exact Or.inr (Or.inl rfl)
        · rw [if_neg hmem]
          exact Or.inr (Or.inr (Or.inl rfl))
      | int n => right; right; right; rfl
      | ptr tag => right; right; right; rfl
      | null => right; right; right; rfl

/-- C5 witness: the three concrete failure inputs produce the three
distinct typed error codes. -/
theorem c5_create_error_codes_witness :
    mpv_render_context_create sampleBackend [] =
      Except.error mpv_error.invalid_parameter ∧
    mpv_render_context_create sampleBackend unknownApiParams =
      Except.error mpv_error.not_implemented ∧
    mpv_render_context_create oldBackend sampleParams =
      Except.error mpv_error.unsupported := by
  refine ⟨(c5_create_error_codes sampleBackend []).1
    (fun api h => by simp [find_param] at h), ?_, ?_⟩
  · exact (c5_create_error_codes sampleBackend unknownApiParams).2.1
      "vulkan" (by decide) (by decide)
  · exact (c5_create_error_codes oldBackend sampleParams).2.2.1
      "opengl" (by decide) (by decide) (by decide)

theorem find_param_append_other (params : List mpv_render_param)
    (p : mpv_render_param) (t : Nat) (ht : p.type ≠ t) :
    find_param (params ++ [p]) t = find_param params t := by
  unfold find_param
  induction params with
  | nil =>
    simp only [List.nil_append, List.find?_nil]
    rw [List.find?_cons_of_neg]
    · rfl
    · intro hq
      exact ht (by simpa using hq)
  | cons hd tl ih =>
    simp only [List.cons_append, List.find?_cons]
    split
    · rfl
    · exact ih

/-- C9: `render()` called with no pending frame-ready bit still succeeds
and counts the frame as rendered; the blocking delay is the same as for the
identical call with the bit pending, and adding `SKIP_RENDERING` changes
neither the success nor the timing. -/
theorem c9_render_without_pending (rc : RenderCtx)
    (params : List mpv_render_param) (now : Int) (d : ParamData)
    (hskip : MPV_RENDER_PARAM_BLOCK_FOR_TARGET_TIME ≠
      MPV_RENDER_PARAM_SKIP_RENDERING)
    (_hp : rc.update_pending = false) :
    (mpv_render_context_render rc params now).2.1 = mpv_error.success ∧
    (mpv_render_context_render rc params now).1.rendered_count =
      rc.rendered_count + 1 ∧
    (mpv_render_context_render rc params now).1.update_pending = false ∧
    (mpv_render_context_render rc params now).2.2 =
      (mpv_render_context_render { rc with update_pending := true }
        params now).2.2 ∧
    (mpv_render_context_render rc
        (params ++ [⟨MPV_RENDER_PARAM_SKIP_RENDERING, d⟩]) now).2.1 =
      mpv_error.success ∧
    (mpv_render_context_render rc
        (params ++ [⟨MPV_RENDER_PARAM_SKIP_RENDERING, d⟩]) now).2.2 =
      (mpv_render_context_render rc params now).2.2 := by
  refine ⟨rfl, rfl, rfl, rfl, rfl, ?_⟩
  unfold mpv_render_context_render
  rw [find_param_append_other params ⟨MPV_RENDER_PARAM_SKIP_RENDERING, d⟩
    MPV_RENDER_PARAM_BLOCK_FOR_TARGET_TIME (fun h => hskip h.symm)]

/-- C9 witness: the sample context with no pending bit renders with
success, bumps the rendered count, and timing matches the pending and
SKIP_RENDERING variants. -/
theorem c9_render_without_pending_witness :
    (mpv_render_context_render sampleRc sampleParams 0).2.1 =
      mpv_error.success ∧
    (mpv_render_context_render sampleRc sampleParams 0).1.rendered_count =
      sampleRc.rendered_count + 1 ∧
    (mpv_render_context_render sampleRc
        (sampleParams ++ [⟨MPV_RENDER_PARAM_SKIP_RENDERING, ParamData.int 1⟩])
        0).2.2 =
      (mpv_render_context_render sampleRc sampleParams 0).2.2 := by
  have h := c9_render_without_pending sampleRc sampleParams 0
    (ParamData.int 1) (by decide) (by decide)
  exact ⟨h.1, h.2.1, h.2.2.2.2.2⟩

end Movi
